import Mathlib

/-!
Shallow embedding of the UN ICSO scraper (`icso.py` together with the
constants it reads from `config.py`).  Python strings are modelled as Lean
`String` (ASCII inputs), BeautifulSoup documents as structured trees that
hold exactly the data the script inspects, TinyDB tables as Lean lists, and
Python exceptions as `Except` errors.  Sleeps and the random user-agent
choice have no effect on any stored data, so they are not modelled.
-/

namespace Icso

/-- Python exception outcomes that `icso.py` can raise on the modelled paths:
`keyError` from `activities[area_key]` on a missing key, `typeError` from
concatenating `None` with an underscore in `clean_key`, `noForm` from
`raw[0]` when `select(form)` is empty, `noBootTable` from the bootstrap
selector returning an empty list, `attrError` from `re.search(...).group(1)`
when the regex finds nothing, and `fetch` for an exception raised by
`requests.get` itself. -/
inductive Err where
  | keyError
  | typeError
  | noForm
  | noBootTable
  | attrError
  | fetch (msg : String)
deriving DecidableEq, Repr

/-! ## String primitives (Python `str` methods and the two `re.sub` calls) -/

/-- Whitespace characters removed by Python `str.strip()` (ASCII range). -/
def isPySpace (c : Char) : Bool :=
  c = ' ' || c = '\t' || c = '\n' || c = '\x0d' || (c = Char.ofNat 11) || (c = Char.ofNat 12)

/-- Python `str.strip()`. -/
def pyStrip (s : String) : String :=
  ⟨((s.data.dropWhile isPySpace).reverse.dropWhile isPySpace).reverse⟩

/-- Python `str.lower()` (ASCII inputs). -/
def pyLower (s : String) : String :=
  ⟨s.data.map Char.toLower⟩

/-- Python `str.replace` sending each space to an underscore. -/
def spacesToUnderscores (s : String) : String :=
  ⟨s.data.map (fun c => if c = ' ' then '_' else c)⟩

/-- Python `\w` test used by `re.sub(r"\W", "", ...)` (ASCII inputs). -/
def isWordChar (c : Char) : Bool :=
  c.isAlphanum || c = '_'

/-- `re.sub(r"\W", "", s)`: drop every non-word character. -/
def dropNonWord (s : String) : String :=
  ⟨s.data.filter isWordChar⟩

/-- One left-to-right non-overlapping pass replacing the doubled character
`c` by a single one, as Python `str.replace(cc, c)` does. -/
def collapsePair (c : Char) : List Char → List Char
  | [] => []
  | [a] => [a]
  | a :: b :: rest =>
    if a = c ∧ b = c then c :: collapsePair c rest
    else a :: collapsePair c (b :: rest)

/-- Python `str.replace` collapsing a doubled underscore to a single one. -/
def collapseUnderscores (s : String) : String :=
  ⟨collapsePair '_' s.data⟩

/-- Python `str.endswith`, on the character lists. -/
def endsWithL (s suf : String) : Bool :=
  List.isSuffixOf suf.data s.data

/-- `re.sub("_$|_yyyy$", "", s)`: the two alternatives can only match at the
end of the string and exclude each other, so this is a single suffix strip. -/
def stripTrailing (s : String) : String :=
  if endsWithL s "_yyyy" then ⟨s.data.take (s.data.length - 5)⟩
  else if endsWithL s "_" then ⟨s.data.take (s.data.length - 1)⟩
  else s

/-! ## Constant tables from `icso.py` -/

def faux_contact_headers : List String :=
  ["headquarters_address", "preferred_mailing_address"]

def contact_keys : List String :=
  ["address", "phone", "fax", "email"]

def list_only_fields : List String :=
  ["languages", "millennium_development_goals",
   "funding_structure", "country_geographical_area_of_activity"]

/-! ## `clean_key` -/

/-- The pure canonicalization part of `clean_key` (everything before the
contact check). -/
def cleanKeyCore (cell : String) : String :=
  stripTrailing (collapseUnderscores (dropNonWord (spacesToUnderscores (pyLower (pyStrip cell)))))

/-- `clean_key(cell, contact_type)`.  `contact_type` is `None` when called
from `clean_activity_list`; concatenating `None` with an underscore there
would raise `TypeError`, which is modelled by the `Except` error. -/
def cleanKey (cell : String) (contact_type : Option String) : Except Err String :=
  let key_clean := cleanKeyCore cell
  if key_clean ∈ contact_keys then
    match contact_type with
    | some ct => .ok (ct ++ "_" ++ key_clean)
    | none => .error .typeError
  else
    .ok key_clean

/-! ## Value cells and value cleaning -/

/-- A `<b>` or `<li>` element inside a value cell, in document order; this is
exactly what `find_all` over the b and li tags of the cell sees. -/
inductive BL where
  | bElem (s : String)
  | liElem (s : String)
deriving DecidableEq, Repr

/-- One table cell: its flattened `.text` plus its `<b>`/`<li>` children. -/
structure Cell where
  text : String
  elems : List BL
deriving DecidableEq, Repr

/-- `clean_value_text`. -/
def cleanValueText (cell : String) : String :=
  ⟨collapsePair '\n' (((pyStrip cell).data.filter (fun c => c ≠ '\t')))⟩

/-- `clean_value_list`: the texts of the li elements of the cell, cleaned. -/
def cleanValueList (cell : Cell) : List String :=
  (cell.elems.filterMap (fun e => match e with
    | .liElem s => some s
    | .bElem _ => none)).map cleanValueText

/-! ## `clean_activity_list` -/

/-- Python-dict assignment on an association list: overwrite in place if the
key is present, otherwise append. -/
def sectAssign : List (String × List String) → String → List String → List (String × List String)
  | [], k, v => [(k, v)]
  | (k', v') :: rest, k, v =>
    if k' = k then (k', v) :: rest else (k', v') :: sectAssign rest k v

/-- `activities[k].append(x)`: fails with `KeyError` when `k` is absent. -/
def sectAppend : List (String × List String) → String → String → Option (List (String × List String))
  | [], _, _ => none
  | (k', v') :: rest, k, x =>
    if k' = k then some ((k', v' ++ [x]) :: rest)
    else (sectAppend rest k x).map (fun r => (k', v') :: r)

/-- The loop body state of `clean_activity_list`: current `area_key` and the
`activities` dict. -/
def activityStep (st : String × List (String × List String)) (e : BL) :
    Except Err (String × List (String × List String)) :=
  match e with
  | .bElem s =>
    match cleanKey s none with
    | .ok area_key => .ok (area_key, sectAssign st.2 area_key [])
    | .error er => .error er
  | .liElem s =>
    match sectAppend st.2 st.1 (cleanValueText s) with
    | some acts => .ok (st.1, acts)
    | none => .error .keyError

/-- `clean_activity_list`: walk the b and li children of the cell; a b tag
opens (or resets) a section, an li tag appends to the current section.  An
li element before any b element looks up the initial empty-string
`area_key` in the empty dict and raises `KeyError`. -/
def cleanActivityList (cell : Cell) : Except Err (List (String × List String)) := do
  let st ← cell.elems.foldlM activityStep ("", [])
  pure st.2

/-! ## Detail documents, rows, and field values -/

/-- A row, as `row.find_all(["th", "td"])` sees it: the list of its cells.
Only rows with exactly two cells are processed. -/
abbrev Row := List Cell

/-- A table: its rows, as `find_all` over tr sees them. -/
abbrev Table := List Row

/-- A fetched detail page, pre-parsed: `forms` is what selecting form tags
returns, each form holding the list of its tables. -/
structure DetailDoc where
  forms : List (List Table)
deriving DecidableEq, Repr

/-- The value shapes stored into the `organization` dict. -/
inductive FieldValue where
  | scalar (s : String)
  | listVal (xs : List String)
  | sectioned (m : List (String × List String))
deriving DecidableEq, Repr

/-- The `organization` dict: a Python dict modelled as an insertion-ordered
association list. -/
abbrev Organization := List (String × FieldValue)

/-- Python-dict assignment `organization[k] = v`: overwrite in place if the
key is present, otherwise append. -/
def dictAssign : Organization → String → FieldValue → Organization
  | [], k, v => [(k, v)]
  | (k', v') :: rest, k, v =>
    if k' = k then (k', v) :: rest else (k', v') :: dictAssign rest k v

/-- The `contact_type` update at the top of the row loop body:
scanning the row label switches `contact_type` to preferred when the label
is exactly the preferred-mailing-address header. -/
def updateCt (keyText : String) (ct : String) : String :=
  if keyText = "Preferred mailing address" then "preferred" else ct

/-- The body of the row loop in `get_parse_org` for one row: returns the
updated `(contact_type, organization)` pair.  Rows whose cell count is not
exactly 2 are ignored. -/
def processRow (row : Row) (ct : String) (org : Organization) :
    Except Err (String × Organization) :=
  match row with
  | [key_raw, value_raw] =>
    let ct1 := updateCt key_raw.text ct
    match cleanKey key_raw.text (some ct1) with
    | .error e => .error e
    | .ok key =>
      if key ∈ faux_contact_headers then .ok (ct1, org)
      else if key ∈ list_only_fields then
        .ok (ct1, dictAssign org key (.listVal (cleanValueList value_raw)))
      else if key = "areas_of_expertise_fields_of_activity" then
        match cleanActivityList value_raw with
        | .ok acts => .ok (ct1, dictAssign org key (.sectioned acts))
        | .error e => .error e
      else
        .ok (ct1, dictAssign org key (.scalar (cleanValueText value_raw.text)))
  | _ => .ok (ct, org)

/-- The row loop over one table, threading `contact_type` and the dict. -/
def processRowsAux : List Row → String → Organization → Except Err (String × Organization)
  | [], ct, org => .ok (ct, org)
  | row :: rest, ct, org =>
    match processRow row ct org with
    | .ok (ct', org') => processRowsAux rest ct' org'
    | .error e => .error e

/-- The table loop of `get_parse_org`: `contact_type` is re-initialized to
hq at the start of every table. -/
def processTables : List Table → Organization → Except Err Organization
  | [], org => .ok org
  | t :: ts, org =>
    match processRowsAux t "hq" org with
    | .ok p => processTables ts p.2
    | .error e => .error e

/-! ## The network and `get_parse_org` -/

/-- One HTTP response as `requests.get` returns it: a status code and a body
(already parsed into the document structure the script inspects). -/
structure Response where
  status : Nat
  body : DetailDoc
deriving DecidableEq, Repr

/-- The network: per organization id, either a transport-level exception from
`requests.get` or a response.  `icso.py` never consults `Response.status`. -/
def Net := String → Except String Response

/-- The parsing part of `get_parse_org` applied to a response body:
select the form elements, take the first (IndexError when there is none),
then run the table loop on a dict seeded with the org_id entry. -/
def buildOrgFromDoc (doc : DetailDoc) (oid : String) : Except Err Organization :=
  match doc.forms with
  | [] => .error .noForm
  | form :: _ => processTables form [("org_id", FieldValue.scalar oid)]

/-- `get_parse_org` up to (but excluding) the final `orgs_full.insert`: fetch
the page and normalize it into one record.  A transport exception from
`requests.get` propagates; the response body is parsed whatever the status. -/
def buildOrg (net : Net) (oid : String) : Except Err Organization :=
  match net oid with
  | .error msg => .error (.fetch msg)
  | .ok r => buildOrgFromDoc r.body oid

/-! ## The TinyDB stores and the main loop -/

/-- One row of the `org_ids` table, as inserted by `generate_list`. -/
structure OrgId where
  org_name : String
  org_id : String
deriving DecidableEq, Repr

/-- Whether a stored record matches `Query().org_id == id`. -/
def recHasId (id : String) (rec : Organization) : Bool :=
  decide (List.lookup "org_id" rec = some (FieldValue.scalar id))

/-- `len(orgs_full.search(q.org_id == id))`. -/
def countMatches (profiles : List Organization) (id : String) : Nat :=
  (profiles.filter (recHasId id)).length

/-- `len(orgs_full.search(q.org_id == id)) != 0`: the skip test. -/
def hasProfileB (profiles : List Organization) (id : String) : Bool :=
  countMatches profiles id ≠ 0

/-- Observable outcome of the `__main__` iteration: the profile store, the
ids for which `requests.get` was issued, the ids the cursor passed over, and
the uncaught exception if one aborted the loop (`none` means the loop ran to
the final `"All done!"` log line). -/
structure LoopOut where
  profiles : List Organization
  fetched : List String
  visited : List String
  errored : Option Err
deriving DecidableEq, Repr

/-- The `for i, org_id in enumerate(...)` body: skip when the profile search
is non-empty, otherwise `get_parse_org` (which ends in `orgs_full.insert`).
An exception aborts the process, leaving the store as it was; the loop index
only chooses sleep durations, which have no observable effect on the data. -/
def crawlLoop (net : Net) : List OrgId → List Organization → LoopOut
  | [], profiles => ⟨profiles, [], [], none⟩
  | o :: rest, profiles =>
    if countMatches profiles o.org_id = 0 then
      match buildOrg net o.org_id with
      | .error e => ⟨profiles, [o.org_id], [o.org_id], some e⟩
      | .ok org =>
        let r := crawlLoop net rest (profiles ++ [org])
        ⟨r.profiles, o.org_id :: r.fetched, o.org_id :: r.visited, r.errored⟩
    else
      let r := crawlLoop net rest profiles
      ⟨r.profiles, r.fetched, o.org_id :: r.visited, r.errored⟩

/-! ## `generate_list` (bootstrap seeding) -/

/-- An anchor inside the first td cell of a bootstrap row. -/
structure Link where
  href : String
  text : String
deriving DecidableEq, Repr

/-- One td cell of a bootstrap row, holding the first anchor if any. -/
structure BootCell where
  link : Option Link
deriving DecidableEq, Repr

/-- One bootstrap row: its list of td cells. -/
abbrev BootRow := List BootCell

/-- One bootstrap table: its list of rows. -/
abbrev BootTable := List BootRow

/-- The saved listing page, pre-parsed: `resultTables` is what the bootstrap
css selector for result tables returns. -/
structure BootDoc where
  resultTables : List BootTable
deriving DecidableEq, Repr

/-- Does `pat` occur as a substring starting at the head of `s`? -/
def startsWithL : List Char → List Char → Bool
  | _, [] => true
  | [], _ :: _ => false
  | c :: cs, p :: ps => c = p && startsWithL cs ps

/-- Python `pat in s` (substring containment). -/
def containsSubL (s pat : List Char) : Bool :=
  match s with
  | [] => startsWithL [] pat
  | _ :: rest => startsWithL s pat || containsSubL rest pat

/-- The Python substring containment test used on href values. -/
def containsSub (s pat : String) : Bool :=
  containsSubL s.data pat.data

/-- `re.search(r"profileCode=(\d+)", href)`: the leftmost position where the
literal is followed by at least one digit; `none` when no such position
exists (then `.group(1)` raises `AttributeError`). -/
def findProfileCodeL : List Char → Option String
  | [] => none
  | c :: rest =>
    if startsWithL (c :: rest) ("profileCode=".data) then
      let digits := ((c :: rest).drop 12).takeWhile Char.isDigit
      if digits.isEmpty then findProfileCodeL rest else some ⟨digits⟩
    else findProfileCodeL rest

def findProfileCode (href : String) : Option String :=
  findProfileCodeL href.data

/-- The body of the row loop in `generate_list`: `first_column` is the `<td>`
list; rows without `<td>` cells, cells without a link, and links that do not
mention `showProfileDetail` contribute nothing. -/
def extractBootRow (row : BootRow) : Except Err (Option OrgId) :=
  match row with
  | [] => .ok none
  | c :: _ =>
    match c.link with
    | none => .ok none
    | some l =>
      if containsSub l.href "showProfileDetail" then
        match findProfileCode l.href with
        | some pid => .ok (some ⟨l.text, pid⟩)
        | none => .error .attrError
      else .ok none

def extractBootRows : List BootRow → Except Err (List OrgId)
  | [] => .ok []
  | r :: rs =>
    match extractBootRow r with
    | .error e => .error e
    | .ok o =>
      match extractBootRows rs with
      | .error e => .error e
      | .ok os => .ok (match o with | some x => x :: os | none => os)

/-- `generate_list`: taking the first selected result table raises
IndexError on an empty selection; otherwise the rows of the first table are
scanned and the collected ids are what `org_ids.insert_multiple` receives. -/
def generateList (doc : BootDoc) : Except Err (List OrgId) :=
  match doc.resultTables with
  | [] => .error .noBootTable
  | t :: _ => extractBootRows t

/-! ## `__main__` -/

/-- Observable outcome of one `python3 icso.py` invocation. -/
structure RunOut where
  orgIds : List OrgId
  profiles : List Organization
  fetched : List String
  visited : List String
  errored : Option Err
deriving DecidableEq, Repr

/-- The `__main__` block: seed `org_ids` from the bootstrap page when the
table is empty, then iterate the first two identities only: the active loop
at icso.py line 163 slices the identity list with a bound of two, while the
commented-out line above it iterates the full list. -/
def runMain (bootstrap : BootDoc) (net : Net) (orgIds0 : List OrgId)
    (profiles0 : List Organization) : RunOut :=
  let seeded : Except Err (List OrgId) :=
    if orgIds0.length = 0 then
      match generateList bootstrap with
      | .ok newIds => .ok (orgIds0 ++ newIds)
      | .error e => .error e
    else .ok orgIds0
  match seeded with
  | .error e => ⟨orgIds0, profiles0, [], [], some e⟩
  | .ok ids =>
    let r := crawlLoop net (ids.take 2) profiles0
    ⟨ids, r.profiles, r.fetched, r.visited, r.errored⟩

/-! ## Derived notions used in theorem statements -/

/-- Does processing this row switch `contact_type` to preferred?  Only a
two-cell row whose label is exactly the preferred-mailing-address header
does. -/
def rowSetsPref (row : Row) : Bool :=
  match row with
  | [k, _] => decide (k.text = "Preferred mailing address")
  | _ => false

/-- The `contact_type` after the row loop body has handled one row. -/
def ctAfterRow (row : Row) (ct : String) : String :=
  match row with
  | [k, _] => updateCt k.text ct
  | _ => ct

/-! ## Concrete fixtures used by witnesses and counterexamples -/

/-- A cell with only text content. -/
def textCell (s : String) : Cell := ⟨s, []⟩

/-- A harmless detail page: one form, one table, one scalar row. -/
def cGoodDoc : DetailDoc := ⟨[[[[textCell "Name", textCell "X"]]]]⟩

/-- A network that answers every id with status 200 and the harmless page. -/
def cNetOK : Net := fun _ => .ok ⟨200, cGoodDoc⟩

/-- A network that answers every id with status 500 and the harmless page. -/
def cNet500 : Net := fun _ => .ok ⟨500, cGoodDoc⟩

/-- A network on which every request raises a transport exception. -/
def cNetErrT : Net := fun _ => .error "connection timed out"

/-- A value cell of the composite expertise field whose first element is a
list item, with no heading before it. -/
def cDegenerateCell : Cell := ⟨"", [.liElem "Nutrition"]⟩

/-- A detail page whose expertise row carries the degenerate cell. -/
def cBadDoc : DetailDoc :=
  ⟨[[[[textCell "Areas of Expertise / Fields of Activity", cDegenerateCell]]]]⟩

/-- A network where entity 1 gets the degenerate page and everything else the
harmless page. -/
def cNet6 : Net := fun oid => if oid = "1" then .ok ⟨200, cBadDoc⟩ else .ok ⟨200, cGoodDoc⟩

/-- A detail page with a row whose canonical key is org_id, overwriting the
identity field of the record with the value 1. -/
def cOverDoc : DetailDoc := ⟨[[[[textCell "Org Id", textCell "1"]]]]⟩

/-- A network where entity 2 gets the org_id-overwriting page. -/
def cNet2 : Net := fun oid => if oid = "2" then .ok ⟨200, cOverDoc⟩ else .ok ⟨200, cGoodDoc⟩

/-- A one-table detail page with an Email row before and after the preferred
header, followed by a second table with another Email row. -/
def cDoc4 : DetailDoc :=
  ⟨[[[[textCell "Email", textCell "a"],
      [textCell "Preferred mailing address", textCell ""],
      [textCell "Email", textCell "b"]],
     [[textCell "Email", textCell "c"]]]]⟩

/-- Three seeded identities. -/
def cIds3 : List OrgId := [⟨"a", "1"⟩, ⟨"b", "2"⟩, ⟨"c", "3"⟩]

/-- Two seeded identities. -/
def cIds2 : List OrgId := [⟨"a", "1"⟩, ⟨"b", "2"⟩]

/-- An empty bootstrap page (the css selector matched nothing). -/
def cBootEmpty : BootDoc := ⟨[]⟩

/-! ## Theorems -/

/-- C1: evaluation of the main loop on a seeded identity collection of three
entities and a fully benign network: the run reaches its terminal state
(`errored = none`, the final log line) having visited only the first two
identities; entity 3, although seeded, is never visited, because the loop at
icso.py line 163 slices the identity list to its first two elements. -/
theorem c1_run_stops_after_two :
    (runMain cBootEmpty cNetOK cIds3 []).errored = none ∧
    (runMain cBootEmpty cNetOK cIds3 []).visited = ["1", "2"] ∧
    "3" ∈ cIds3.map OrgId.org_id ∧
    "3" ∉ (runMain cBootEmpty cNetOK cIds3 []).visited := by
  refine ⟨rfl, rfl, by decide, by decide⟩

/-- C5: the sectioned-list parser crashes on a value cell whose first element
is a list item with no preceding heading: the lookup of the initial
empty-string section key in the empty dict raises `KeyError`, rather than
opening a synthetic empty-name section. -/
theorem c5_degenerate_cell_raises :
    cleanActivityList cDegenerateCell = .error .keyError := rfl

/-- C6 counterexample: a normalization anomaly while processing one entity
aborts the whole run: with entity 1 answering the degenerate expertise page,
the run dies with the uncaught `KeyError`, entity 2 — still in the queue —
is never visited, and no record is stored. -/
theorem c6_anomaly_aborts_run :
    (runMain cBootEmpty cNet6 cIds2 []).errored = some .keyError ∧
    (runMain cBootEmpty cNet6 cIds2 []).visited = ["1"] ∧
    "2" ∉ (runMain cBootEmpty cNet6 cIds2 []).visited ∧
    (runMain cBootEmpty cNet6 cIds2 []).profiles = [] := by
  refine ⟨rfl, rfl, by decide, rfl⟩

/-- C7: the five key-canonicalization examples, evaluated on `clean_key`
exactly as the spec states them. -/
theorem c7_key_canonicalization :
    cleanKey "Telephone:  " (some "hq") = .ok "telephone" ∧
    cleanKey "Fax Number" (some "hq") = .ok "fax_number" ∧
    cleanKey "Year Founded YYYY" (some "hq") = .ok "year_founded" ∧
    cleanKey "Email" (some "preferred") = .ok "preferred_email" ∧
    cleanKey "Email" (some "hq") = .ok "hq_email" := by
  refine ⟨rfl, rfl, rfl, rfl, rfl⟩

/-- C3 counterexample: the network answers entity 7 with HTTP status 500 (a
non-success response) and the harmless body, yet `get_parse_org` does not
fail: it parses and processes that body into a complete record, because the
source never consults the status code of the response. -/
theorem c3_counterexample :
    cNet500 "7" = .ok ⟨500, cGoodDoc⟩ ∧
    buildOrg cNet500 "7" =
      .ok [("org_id", FieldValue.scalar "7"), ("name", FieldValue.scalar "X")] := by
  exact ⟨rfl, rfl⟩

/-- C3 amended: a transport-level exception from `requests.get` is the only
fetch failure and it propagates to the orchestrator; for delivered responses
the outcome depends only on the body — two responses with the same body and
different status codes (success or not) are processed identically. -/
theorem c3_amended (net net' : Net) (oid : String) :
    (∀ msg, net oid = .error msg → buildOrg net oid = .error (.fetch msg)) ∧
    (∀ s s' b, net oid = .ok ⟨s, b⟩ → net' oid = .ok ⟨s', b⟩ →
      buildOrg net oid = buildOrg net' oid) := by
  constructor
  · intro msg h
    simp [buildOrg, h]
  · intro s s' b h h'
    simp [buildOrg, h, h']

/-- C3 witness: the amended theorem applied to a concrete transport-failing
network and to two concrete networks answering status 200 and status 500
with the same body. -/
theorem c3_witness :
    buildOrg cNetErrT "1" = .error (.fetch "connection timed out") ∧
    buildOrg cNetOK "1" = buildOrg cNet500 "1" := by
  exact ⟨(c3_amended cNetErrT cNetErrT "1").1 "connection timed out" rfl,
         (c3_amended cNetOK cNet500 "1").2 200 500 cGoodDoc rfl rfl⟩

/-- C4 counterexample: one document, two tables; the preferred-mailing
header appears in the first table, before its second Email row; the second
table holds another Email row.  The resulting record contains both the
hq-namespaced and the preferred-namespaced email field at once, and the
Email row of the second table — although it comes after the header was seen
in the same document — is namespaced hq, because `contact_type` is reset at
every table, not per document. -/
theorem c4_counterexample :
    buildOrgFromDoc cDoc4 "9" =
      .ok [("org_id", FieldValue.scalar "9"),
           ("hq_email", FieldValue.scalar "c"),
           ("preferred_email", FieldValue.scalar "b")] ∧
    List.lookup "hq_email"
      [("org_id", FieldValue.scalar "9"),
       ("hq_email", FieldValue.scalar "c"),
       ("preferred_email", FieldValue.scalar "b")] = some (FieldValue.scalar "c") ∧
    List.lookup "preferred_email"
      [("org_id", FieldValue.scalar "9"),
       ("hq_email", FieldValue.scalar "c"),
       ("preferred_email", FieldValue.scalar "b")] = some (FieldValue.scalar "b") := by
  exact ⟨rfl, rfl, rfl⟩

/-- C2 counterexample: the detail page of entity 2 contains a row whose
canonical key is org_id, which overwrites the identity field of the record
being built with the value 1.  Already the first run stores two records whose
org_id is 1; after running the orchestrator a second time against the
resulting store (entity 2 still has no record under its own id, so it is
fetched again) the profile collection holds three records with org_id 1. -/
theorem c2_counterexample :
    countMatches
      (runMain cBootEmpty cNet2
        (runMain cBootEmpty cNet2 cIds2 []).orgIds
        (runMain cBootEmpty cNet2 cIds2 []).profiles).profiles "1" = 3 := by
  rfl

/-! ## Helper lemmas about the row loop -/

theorem processRowsAux_append (a b : List Row) (ct : String) (org : Organization) :
    processRowsAux (a ++ b) ct org =
      (processRowsAux a ct org).bind (fun p => processRowsAux b p.1 p.2) := by
  induction a generalizing ct org with
  | nil => rfl
  | cons r rs ih =>
    show processRowsAux (r :: (rs ++ b)) ct org = _
    cases h : processRow r ct org with
    | error e => simp [processRowsAux, h, Except.bind]
    | ok p =>
      cases p with
      | mk ct' org' => simp [processRowsAux, h, Except.bind, ih]

theorem processRow_ct (row : Row) (ct : String) (org : Organization)
    (p : String × Organization) (h : processRow row ct org = .ok p) :
    p.1 = ctAfterRow row ct := by
  match row with
  | [] =>
    simp only [processRow] at h
    cases h
    rfl
  | [k] =>
    simp only [processRow] at h
    cases h
    rfl
  | [k, v] =>
    simp only [processRow, ctAfterRow] at h ⊢
    cases hck : cleanKey k.text (some (updateCt k.text ct)) with
    | error e => rw [hck] at h; cases h
    | ok key =>
      rw [hck] at h
      dsimp only at h
      by_cases hf : key ∈ faux_contact_headers
      · rw [if_pos hf] at h; cases h; rfl
      · rw [if_neg hf] at h
        by_cases hl : key ∈ list_only_fields
        · rw [if_pos hl] at h; cases h; rfl
        · rw [if_neg hl] at h
          by_cases ha : key = "areas_of_expertise_fields_of_activity"
          · rw [if_pos ha] at h
            cases hact : cleanActivityList v with
            | error e => rw [hact] at h; cases h
            | ok acts => rw [hact] at h; cases h; rfl
          · rw [if_neg ha] at h; cases h; rfl
  | k :: v :: w :: tl =>
    simp only [processRow] at h
    cases h
    rfl

theorem ctAfterRow_of_pref (row : Row) (ct : String) (h : rowSetsPref row = true) :
    ctAfterRow row ct = "preferred" := by
  match row with
  | [] => simp [rowSetsPref] at h
  | [k] => simp [rowSetsPref] at h
  | [k, v] =>
    simp only [rowSetsPref, decide_eq_true_eq] at h
    simp [ctAfterRow, updateCt, h]
  | k :: v :: w :: tl => simp [rowSetsPref] at h

theorem ctAfterRow_pref_stays (row : Row) :
    ctAfterRow row "preferred" = "preferred" := by
  match row with
  | [] => rfl
  | [k] => rfl
  | [k, v] =>
    simp only [ctAfterRow, updateCt]
    split <;> rfl
  | k :: v :: w :: tl => rfl

theorem processRowsAux_stays_pref (rows : List Row) (org : Organization)
    (p : String × Organization)
    (h : processRowsAux rows "preferred" org = .ok p) : p.1 = "preferred" := by
  induction rows generalizing org with
  | nil =>
    simp only [processRowsAux] at h
    cases h
    rfl
  | cons r rs ih =>
    simp only [processRowsAux] at h
    cases hr : processRow r "preferred" org with
    | error e => rw [hr] at h; cases h
    | ok q =>
      rw [hr] at h
      have hq : q.1 = "preferred" := by
        rw [processRow_ct r "preferred" org q hr, ctAfterRow_pref_stays]
      cases q with
      | mk qct qorg =>
        simp only at hq
        subst hq
        exact ih qorg h

theorem processRowsAux_pref_final (rows : List Row) (ct : String) (org : Organization)
    (p : String × Organization)
    (hm : ∃ r ∈ rows, rowSetsPref r = true)
    (h : processRowsAux rows ct org = .ok p) : p.1 = "preferred" := by
  induction rows generalizing ct org with
  | nil => simp at hm
  | cons r rs ih =>
    simp only [processRowsAux] at h
    cases hr : processRow r ct org with
    | error e => rw [hr] at h; cases h
    | ok q =>
      rw [hr] at h
      rcases hm with ⟨r', hr', hset⟩
      rcases List.mem_cons.mp hr' with rfl | hmem
      · have hq : q.1 = "preferred" := by
          rw [processRow_ct r' ct org q hr, ctAfterRow_of_pref r' ct hset]
        cases q with
        | mk qct qorg =>
          simp only at hq
          subst hq
          exact processRowsAux_stays_pref rs qorg p h
      · cases q with
        | mk qct qorg => exact ih qct qorg ⟨r', hmem, hset⟩ h

/-- C4 amended: first, `contact_type` is re-initialized to hq at the start
of every table of the document, so a preferred-mailing header in one table
does not reach into later tables (and every new document likewise starts in
the hq context); second, within one table, every row that comes after a
preferred-mailing header row is processed in the preferred context, so its
contact fields get the preferred namespace.  (A record may carry both the
hq and the preferred variant of a contact field, as `c4_counterexample`
shows, so no both-at-once exclusion holds.) -/
theorem c4_amended :
    (∀ (t : Table) (ts : List Table) (org : Organization),
      processTables (t :: ts) org =
        (processRowsAux t "hq" org).bind (fun p => processTables ts p.2)) ∧
    (∀ (r1 r2 : List Row) (ct : String) (org : Organization),
      (∃ r ∈ r1, rowSetsPref r = true) →
      processRowsAux (r1 ++ r2) ct org =
        (processRowsAux r1 ct org).bind (fun p => processRowsAux r2 "preferred" p.2)) := by
  constructor
  · intro t ts org
    cases h : processRowsAux t "hq" org with
    | error e => simp [processTables, h, Except.bind]
    | ok p => simp [processTables, h, Except.bind]
  · intro r1 r2 ct org hm
    rw [processRowsAux_append]
    cases h : processRowsAux r1 ct org with
    | error e => rfl
    | ok p =>
      have hp := processRowsAux_pref_final r1 ct org p hm h
      simp [Except.bind, hp]

/-- C4 witness: the amended theorem applied to a concrete table whose first
row is the preferred-mailing header followed by an Email row. -/
theorem c4_witness :
    processRowsAux
        ([[textCell "Preferred mailing address", textCell ""]] ++
          [[textCell "Email", textCell "b"]]) "hq" [] =
      (processRowsAux [[textCell "Preferred mailing address", textCell ""]] "hq" []).bind
        (fun p => processRowsAux [[textCell "Email", textCell "b"]] "preferred" p.2) := by
  exact c4_amended.2
    [[textCell "Preferred mailing address", textCell ""]]
    [[textCell "Email", textCell "b"]] "hq" []
    (by decide)

/-- C8: a two-cell row whose canonical key (computed with the current, just
updated contact context) is one of the two faux section headers contributes
nothing to the record: processing the remaining rows continues from an
unchanged `organization` dict, so no key is added and no value is emitted for
that row — only the contact context may have switched. -/
theorem c8_faux_header_suppressed (k v : Cell) (rest : List Row) (ct : String)
    (org : Organization) (key : String)
    (hkey : cleanKey k.text (some (updateCt k.text ct)) = .ok key)
    (hfaux : key ∈ faux_contact_headers) :
    processRowsAux ([k, v] :: rest) ct org =
      processRowsAux rest (updateCt k.text ct) org := by
  simp only [processRowsAux, processRow]
  rw [hkey]
  dsimp only
  rw [if_pos hfaux]

/-- C8 witness: the theorem applied to a row labeled exactly
"Headquarters address". -/
theorem c8_witness :
    processRowsAux [[textCell "Headquarters address", textCell "1 Main St"]] "hq" [] =
      processRowsAux [] (updateCt (textCell "Headquarters address").text "hq") [] := by
  exact c8_faux_header_suppressed
    (textCell "Headquarters address") (textCell "1 Main St") [] "hq" []
    "headquarters_address" rfl (by decide)

/-- C9: when the bootstrap document lacks the expected results table (the
css selector matched nothing) and the identity collection is empty, the run
aborts during seeding with the IndexError of `generate_list`: no identity is
inserted, no entity is visited, no network fetch is performed, and the
profile collection is untouched. -/
theorem c9_bootstrap_failure (boot : BootDoc) (net : Net)
    (p0 : List Organization) (h : boot.resultTables = []) :
    runMain boot net [] p0 = ⟨[], p0, [], [], some .noBootTable⟩ := by
  simp [runMain, generateList, h]

/-- C9 witness: the theorem applied to the concrete empty bootstrap page. -/
theorem c9_witness :
    runMain cBootEmpty cNetOK [] [] = ⟨[], [], [], [], some .noBootTable⟩ := by
  exact c9_bootstrap_failure cBootEmpty cNetOK [] rfl

/-- C10: if fetching or normalizing the detail document of an entity fails
in any way (the error value covers transport failures, missing form, and
every normalization exception), the run aborts with the profile collection
exactly as it was: `orgs_full.insert` is the last statement of
`get_parse_org`, so no partial record is persisted, and the completion check
for that entity still fails afterwards. -/
theorem c10_no_partial_insert (net : Net) (o : OrgId) (rest : List OrgId)
    (p : List Organization) (e : Err)
    (habs : countMatches p o.org_id = 0)
    (herr : buildOrg net o.org_id = .error e) :
    crawlLoop net (o :: rest) p = ⟨p, [o.org_id], [o.org_id], some e⟩ ∧
    hasProfileB (crawlLoop net (o :: rest) p).profiles o.org_id = false := by
  have h1 : crawlLoop net (o :: rest) p = ⟨p, [o.org_id], [o.org_id], some e⟩ := by
    simp only [crawlLoop]
    rw [if_pos habs, herr]
  refine ⟨h1, ?_⟩
  rw [h1]
  simp [hasProfileB, habs]

/-- C10 witness: the theorem applied to a transport-failing network and one
seeded entity over an empty profile collection. -/
theorem c10_witness :
    crawlLoop cNetErrT [⟨"a", "1"⟩] [] =
      ⟨[], ["1"], ["1"], some (.fetch "connection timed out")⟩ ∧
    hasProfileB (crawlLoop cNetErrT [⟨"a", "1"⟩] []).profiles "1" = false := by
  exact c10_no_partial_insert cNetErrT ⟨"a", "1"⟩ [] [] (.fetch "connection timed out")
    rfl rfl

/-- C6 amended: a failure while fetching or normalizing one entity aborts
the run at that entity: the exception propagates uncaught out of
`get_parse_org`, the cursor stops (nothing after the failing entity is
visited in this run), and the profile store is left as it was — the
remaining queue is only handled by a later re-invocation, which skips the
completed entities. -/
theorem c6_amended (net : Net) (o : OrgId) (rest : List OrgId)
    (p : List Organization) (e : Err)
    (habs : countMatches p o.org_id = 0)
    (herr : buildOrg net o.org_id = .error e) :
    (crawlLoop net (o :: rest) p).errored = some e ∧
    (crawlLoop net (o :: rest) p).visited = [o.org_id] ∧
    (crawlLoop net (o :: rest) p).profiles = p := by
  have h1 : crawlLoop net (o :: rest) p = ⟨p, [o.org_id], [o.org_id], some e⟩ := by
    simp only [crawlLoop]
    rw [if_pos habs, herr]
  rw [h1]
  exact ⟨rfl, rfl, rfl⟩

/-- C6 witness: the amended theorem applied to the degenerate-page network,
with a second entity waiting in the queue. -/
theorem c6_witness :
    (crawlLoop cNet6 cIds2 []).errored = some .keyError ∧
    (crawlLoop cNet6 cIds2 []).visited = ["1"] ∧
    (crawlLoop cNet6 cIds2 []).profiles = [] := by
  exact c6_amended cNet6 ⟨"a", "1"⟩ [⟨"b", "2"⟩] [] .keyError rfl rfl

/-! ## Helper lemmas about the crawl loop and the profile store -/

theorem countMatches_append (p q : List Organization) (id : String) :
    countMatches (p ++ q) id = countMatches p id + countMatches q id := by
  simp [countMatches, List.filter_append]

theorem countMatches_singleton (org : Organization) (id : String) :
    countMatches [org] id = if recHasId id org then 1 else 0 := by
  simp only [countMatches, List.filter]
  split <;> simp_all

theorem recHasId_ne (oid id : String) (org : Organization)
    (h : recHasId oid org = true) (hne : id ≠ oid) : recHasId id org = false := by
  unfold recHasId at h ⊢
  apply decide_eq_false
  intro h2
  have h1 := of_decide_eq_true h
  rw [h1] at h2
  injection h2 with h3
  injection h3 with h4
  exact hne h4.symm

/-- `requests.get` is only issued for an entity whose profile search was
empty at visit time; since the store only grows, such an entity had no
profile in the store the loop started from. -/
theorem crawlLoop_fetch_absent (net : Net) (ids : List OrgId)
    (p : List Organization) (id : String)
    (h : id ∈ (crawlLoop net ids p).fetched) : countMatches p id = 0 := by
  induction ids generalizing p with
  | nil => simp [crawlLoop] at h
  | cons o rest ih =>
    by_cases hskip : countMatches p o.org_id = 0
    · cases hb : buildOrg net o.org_id with
      | error e =>
        simp [crawlLoop, hskip, hb] at h
        rw [h]
        exact hskip
      | ok org =>
        simp only [crawlLoop, if_pos hskip, hb, List.mem_cons] at h
        rcases h with rfl | h
        · exact hskip
        · have h2 := ih (p ++ [org]) h
          rw [countMatches_append] at h2
          omega
    · simp only [crawlLoop, if_neg hskip] at h
      exact ih p h

/-- When every successfully built record carries the id it was fetched for,
the crawl loop preserves the no-duplicate invariant of the profile store:
an entity is only fetched and inserted while absent, and the inserted record
matches no other id. -/
theorem crawlLoop_nodup (net : Net)
    (hg : ∀ oid org, buildOrg net oid = .ok org → recHasId oid org = true)
    (ids : List OrgId) (p : List Organization)
    (hp : ∀ id, countMatches p id ≤ 1) :
    ∀ id, countMatches (crawlLoop net ids p).profiles id ≤ 1 := by
  induction ids generalizing p with
  | nil => intro id; simpa [crawlLoop] using hp id
  | cons o rest ih =>
    intro id
    by_cases hskip : countMatches p o.org_id = 0
    · cases hb : buildOrg net o.org_id with
      | error e =>
        simp only [crawlLoop, if_pos hskip, hb]
        exact hp id
      | ok org =>
        simp only [crawlLoop, if_pos hskip, hb]
        apply ih
        intro id'
        rw [countMatches_append, countMatches_singleton]
        by_cases hid : id' = o.org_id
        · subst hid
          rw [hskip, hg o.org_id org hb]
          simp
        · rw [recHasId_ne o.org_id id' org (hg o.org_id org hb) hid]
          simpa using hp id'
    · simp only [crawlLoop, if_neg hskip]
      exact ih p hp id

/-- One invocation either aborts during seeding (store untouched, nothing
fetched) or runs the crawl loop over the first two elements of some identity
list against the initial profile store. -/
theorem runMain_spec (b : BootDoc) (net : Net) (ids0 : List OrgId)
    (p0 : List Organization) :
    ((runMain b net ids0 p0).profiles = p0 ∧ (runMain b net ids0 p0).fetched = []) ∨
    (∃ ids : List OrgId,
      (runMain b net ids0 p0).profiles = (crawlLoop net (ids.take 2) p0).profiles ∧
      (runMain b net ids0 p0).fetched = (crawlLoop net (ids.take 2) p0).fetched) := by
  unfold runMain
  by_cases h0 : ids0.length = 0
  · rw [if_pos h0]
    cases hg : generateList b with
    | error e => exact Or.inl ⟨rfl, rfl⟩
    | ok newIds => exact Or.inr ⟨ids0 ++ newIds, rfl, rfl⟩
  · rw [if_neg h0]
    exact Or.inr ⟨ids0, rfl, rfl⟩

/-- C2 amended: provided every record the network lets the normalizer build
keeps the id it was fetched for (no detail row canonicalizes to the key
org_id and overwrites it — `c2_counterexample` shows the unrestricted claim
fails exactly there), running the orchestrator twice against the same
RecordStore and the same network responses never yields two ProfileRecords
with the same entity id, and the second run performs zero network fetches
for every entity that already has a profile record. -/
theorem c2_amended (b : BootDoc) (net : Net) (ids0 : List OrgId)
    (p0 : List Organization)
    (hg : ∀ oid org, buildOrg net oid = .ok org → recHasId oid org = true)
    (hnd : ∀ id, countMatches p0 id ≤ 1) :
    (∀ id, countMatches
      (runMain b net (runMain b net ids0 p0).orgIds
        (runMain b net ids0 p0).profiles).profiles id ≤ 1) ∧
    (∀ id, hasProfileB (runMain b net ids0 p0).profiles id = true →
      id ∉ (runMain b net (runMain b net ids0 p0).orgIds
        (runMain b net ids0 p0).profiles).fetched) := by
  have nd1 : ∀ id, countMatches (runMain b net ids0 p0).profiles id ≤ 1 := by
    rcases runMain_spec b net ids0 p0 with ⟨hp, _⟩ | ⟨ids, hp, _⟩
    · intro id; rw [hp]; exact hnd id
    · intro id; rw [hp]; exact crawlLoop_nodup net hg (ids.take 2) p0 hnd id
  constructor
  · rcases runMain_spec b net (runMain b net ids0 p0).orgIds
      (runMain b net ids0 p0).profiles with ⟨hp, _⟩ | ⟨ids, hp, _⟩
    · intro id; rw [hp]; exact nd1 id
    · intro id; rw [hp]
      exact crawlLoop_nodup net hg (ids.take 2) _ nd1 id
  · intro id hid
    rcases runMain_spec b net (runMain b net ids0 p0).orgIds
      (runMain b net ids0 p0).profiles with ⟨_, hf⟩ | ⟨ids, _, hf⟩
    · rw [hf]; simp
    · rw [hf]
      intro hmem
      have h0 := crawlLoop_fetch_absent net (ids.take 2) _ id hmem
      simp only [hasProfileB, ne_eq, decide_eq_true_eq] at hid
      exact hid h0

/-- C2 witness: the amended theorem applied to the benign constant network
(whose single record shape keeps the fetched id, discharging the
record-id hypothesis uniformly) and one seeded identity over an empty
store. -/
theorem c2_witness :
    countMatches
      (runMain cBootEmpty cNetOK (runMain cBootEmpty cNetOK [⟨"a", "1"⟩] []).orgIds
        (runMain cBootEmpty cNetOK [⟨"a", "1"⟩] []).profiles).profiles "1" ≤ 1 ∧
    "1" ∉ (runMain cBootEmpty cNetOK (runMain cBootEmpty cNetOK [⟨"a", "1"⟩] []).orgIds
        (runMain cBootEmpty cNetOK [⟨"a", "1"⟩] []).profiles).fetched := by
  have hg : ∀ oid org, buildOrg cNetOK oid = .ok org → recHasId oid org = true := by
    intro oid org h
    have h2 : Except.ok (ε := Err)
        [("org_id", FieldValue.scalar oid), ("name", FieldValue.scalar "X")] =
        Except.ok org := h
    injection h2 with h3
    rw [← h3]
    exact decide_eq_true rfl
  have hnd : ∀ id, countMatches ([] : List Organization) id ≤ 1 := by
    intro id; exact Nat.le_of_lt (Nat.lt_succ_of_le (Nat.zero_le 0))
  have hmain := c2_amended cBootEmpty cNetOK [⟨"a", "1"⟩] [] hg hnd
  exact ⟨hmain.1 "1", hmain.2 "1" rfl⟩

end Icso
